import Mathlib

set_option maxRecDepth 10000

/-!
Verification development for the spotify-exporter PKCE authentication core.

The Python source (src/app/spotify_auth.py, src/app/config.py) is embedded
shallowly: pure helpers become Lean functions, the mutable objects become
explicit state passing, the one external network collaborator (the spotipy
OAuth client) is modelled by passing its response in as an argument, and
Python exceptions become `Except` values carrying the exact message raised.
The third-party `pkce` helpers (`generate_code_verifier`, `get_code_challenge`)
and the pieces of the Python standard library the module leans on
(`urllib.parse.urlsplit` / `parse_qs` / `urlencode`, `secrets.token_urlsafe`,
`hashlib.sha256`, `base64.urlsafe_b64encode`, and the `ipaddress` validation
`urlsplit` performs on bracketed hosts) are embedded from their published
behaviour (CPython 3.12 / pkce 1.0.3), since they are external libraries the
repository calls, not repository code.  One piece of external data is passed
in rather than embedded: the NFKC normalization of the `unicodedata`
character database, which `urlsplit` consults only for a non-ASCII
authority, enters as an explicit `nfkc` argument, exactly as the network
responses do.
-/

namespace SpotifyExporter

/-! ## SHA-256 (FIPS 180-4), over byte lists, words as `Nat` reduced mod 2^32 -/

/-- Truncate to a 32-bit word, as the C implementation's `uint32_t` wraparound. -/
def w32 (n : Nat) : Nat := n % 4294967296

/-- Rotate a 32-bit word right by `n` bits. -/
def rotr (n x : Nat) : Nat := w32 ((x >>> n) ||| (x <<< (32 - n)))

/-- The SHA-256 `Ch` function; 32-bit complement written as xor with the all-ones word. -/
def ch (x y z : Nat) : Nat := (x &&& y) ^^^ ((x ^^^ 4294967295) &&& z)

/-- The SHA-256 `Maj` function. -/
def maj (x y z : Nat) : Nat := (x &&& y) ^^^ (x &&& z) ^^^ (y &&& z)

/-- The SHA-256 Sigma-0 compression function. -/
def bigS0 (x : Nat) : Nat := rotr 2 x ^^^ rotr 13 x ^^^ rotr 22 x

/-- The SHA-256 Sigma-1 compression function. -/
def bigS1 (x : Nat) : Nat := rotr 6 x ^^^ rotr 11 x ^^^ rotr 25 x

/-- The SHA-256 sigma-0 message-schedule function. -/
def smallS0 (x : Nat) : Nat := rotr 7 x ^^^ rotr 18 x ^^^ (x >>> 3)

/-- The SHA-256 sigma-1 message-schedule function. -/
def smallS1 (x : Nat) : Nat := rotr 17 x ^^^ rotr 19 x ^^^ (x >>> 10)

/-- The 64 SHA-256 round constants. -/
def sha256K : List Nat :=
  [1116352408, 1899447441, 3049323471, 3921009573, 961987163, 1508970993, 2453635748, 2870763221,
   3624381080, 310598401, 607225278, 1426881987, 1925078388, 2162078206, 2614888103, 3248222580,
   3835390401, 4022224774, 264347078, 604807628, 770255983, 1249150122, 1555081692, 1996064986,
   2554220882, 2821834349, 2952996808, 3210313671, 3336571891, 3584528711, 113926993, 338241895,
   666307205, 773529912, 1294757372, 1396182291, 1695183700, 1986661051, 2177026350, 2456956037,
   2730485921, 2820302411, 3259730800, 3345764771, 3516065817, 3600352804, 4094571909, 275423344,
   430227734, 506948616, 659060556, 883997877, 958139571, 1322822218, 1537002063, 1747873779,
   1955562222, 2024104815, 2227730452, 2361852424, 2428436474, 2756734187, 3204031479, 3329325298]

/-- An eight-word SHA-256 chaining state. -/
structure Hash8 where
  h0 : Nat
  h1 : Nat
  h2 : Nat
  h3 : Nat
  h4 : Nat
  h5 : Nat
  h6 : Nat
  h7 : Nat
deriving DecidableEq, Repr

/-- The SHA-256 initial hash value. -/
def sha256Init : Hash8 :=
  ⟨1779033703, 3144134277, 1013904242, 2773480762, 1359893119, 2600822924, 528734635, 1541459225⟩

/-- Big-endian packing of bytes into 32-bit words (a trailing group shorter
than 4 bytes cannot arise on padded input and is discarded). -/
def bytesToWordsBE : List Nat → List Nat
  | b0 :: b1 :: b2 :: b3 :: rest =>
      (b0 * 16777216 + b1 * 65536 + b2 * 256 + b3) :: bytesToWordsBE rest
  | _ => []

/-- Split a word list into 16-word message blocks (a trailing group shorter
than 16 words cannot arise on padded input and is discarded). -/
def wordsToBlocks : List Nat → List (List Nat)
  | w0 :: w1 :: w2 :: w3 :: w4 :: w5 :: w6 :: w7 ::
    w8 :: w9 :: w10 :: w11 :: w12 :: w13 :: w14 :: w15 :: rest =>
      [w0, w1, w2, w3, w4, w5, w6, w7, w8, w9, w10, w11, w12, w13, w14, w15]
        :: wordsToBlocks rest
  | _ => []

/-- Extend the message schedule: `acc` holds the words computed so far, most
recent first, so `W[t-2]` is `acc[1]`, `W[t-7]` is `acc[6]`, `W[t-15]` is
`acc[14]` and `W[t-16]` is `acc[15]`; `count` rounds remain. -/
def extendWrev (count : Nat) (acc : List Nat) : List Nat :=
  match count with
  | 0 => acc
  | n + 1 =>
      let w := w32 (smallS1 (acc.getD 1 0) + acc.getD 6 0 +
                    smallS0 (acc.getD 14 0) + acc.getD 15 0)
      extendWrev n (w :: acc)

/-- The full 64-entry message schedule of one block. -/
def messageSchedule (block : List Nat) : List Nat :=
  (extendWrev 48 block.reverse).reverse

/-- The eight working registers of the compression loop. -/
structure Regs where
  a : Nat
  b : Nat
  c : Nat
  d : Nat
  e : Nat
  f : Nat
  g : Nat
  h : Nat
deriving DecidableEq, Repr

/-- One SHA-256 round; `kw` is the pair of round constant and schedule word. -/
def roundStep (r : Regs) (kw : Nat × Nat) : Regs :=
  let t1 := w32 (r.h + bigS1 r.e + ch r.e r.f r.g + kw.1 + kw.2)
  let t2 := w32 (bigS0 r.a + maj r.a r.b r.c)
  ⟨w32 (t1 + t2), r.a, r.b, r.c, w32 (r.d + t1), r.e, r.f, r.g⟩

/-- Compress one 16-word block into the chaining state. -/
def compressBlock (hs : Hash8) (block : List Nat) : Hash8 :=
  let ws := messageSchedule block
  let r0 : Regs := ⟨hs.h0, hs.h1, hs.h2, hs.h3, hs.h4, hs.h5, hs.h6, hs.h7⟩
  let r := (sha256K.zip ws).foldl roundStep r0
  ⟨w32 (hs.h0 + r.a), w32 (hs.h1 + r.b), w32 (hs.h2 + r.c), w32 (hs.h3 + r.d),
   w32 (hs.h4 + r.e), w32 (hs.h5 + r.f), w32 (hs.h6 + r.g), w32 (hs.h7 + r.h)⟩

/-- Big-endian bytes of the 64-bit message-length field. -/
def beBytes8 (n : Nat) : List Nat :=
  [(n >>> 56) % 256, (n >>> 48) % 256, (n >>> 40) % 256, (n >>> 32) % 256,
   (n >>> 24) % 256, (n >>> 16) % 256, (n >>> 8) % 256, n % 256]

/-- Big-endian bytes of one 32-bit word. -/
def wordBytesBE (w : Nat) : List Nat :=
  [(w >>> 24) % 256, (w >>> 16) % 256, (w >>> 8) % 256, w % 256]

/-- SHA-256 padding: a 128 byte, zeros to 56 mod 64, and the bit length. -/
def sha256pad (msg : List Nat) : List Nat :=
  let l := msg.length
  let padlen := (64 + 55 - l % 64) % 64
  msg ++ 128 :: (List.replicate padlen 0 ++ beBytes8 (8 * l))

/-- The SHA-256 digest (32 bytes) of a byte-list message. -/
def sha256 (msg : List Nat) : List Nat :=
  let final := (wordsToBlocks (bytesToWordsBE (sha256pad msg))).foldl compressBlock sha256Init
  wordBytesBE final.h0 ++ (wordBytesBE final.h1 ++ (wordBytesBE final.h2 ++
    (wordBytesBE final.h3 ++ (wordBytesBE final.h4 ++ (wordBytesBE final.h5 ++
      (wordBytesBE final.h6 ++ wordBytesBE final.h7))))))

/-! ## URL-safe base64 (`base64.urlsafe_b64encode`) and `secrets.token_urlsafe` -/

/-- The URL-safe base64 alphabet (RFC 4648 with `-` and `_`): the upper-case
letters, the lower-case letters, the digits, then `-` and `_`. -/
def b64urlTable : List Char :=
  (List.range 26).map (fun n => Char.ofNat (65 + n)) ++
    (List.range 26).map (fun n => Char.ofNat (97 + n)) ++
    (List.range 10).map (fun n => Char.ofNat (48 + n)) ++ ['-', '_']

/-- The alphabet character of a sextet (reduced mod 64, which is the identity
on the sextets actually produced by the encoder). -/
def b64char (n : Nat) : Char := b64urlTable.getD (n % 64) 'A'

/-- `base64.urlsafe_b64encode` on a byte list, padding included. -/
def b64urlEncode : List Nat → List Char
  | [] => []
  | [b0] => [b64char (b0 / 4), b64char (b0 % 4 * 16), '=', '=']
  | [b0, b1] => [b64char (b0 / 4), b64char (b0 % 4 * 16 + b1 / 16), b64char (b1 % 16 * 4), '=']
  | b0 :: b1 :: b2 :: rest =>
      b64char (b0 / 4) :: b64char (b0 % 4 * 16 + b1 / 16) ::
        b64char (b1 % 16 * 4 + b2 / 64) :: b64char (b2 % 64) :: b64urlEncode rest

/-- Strip trailing `=` padding, as `bytes.rstrip(b"=")`. -/
def rstripEq (l : List Char) : List Char :=
  (l.reverse.dropWhile (fun c => c == '=')).reverse

/-- Remove every `=`, as `str.replace("=", "")`. -/
def stripPad (l : List Char) : List Char :=
  l.filter (fun c => !(c == '='))

/-- `secrets.token_urlsafe`: base64url-encode the random bytes and strip the
trailing padding.  The randomness is passed in as the byte list `entropy`. -/
def token_urlsafe (entropy : List Nat) : String :=
  ⟨rstripEq (b64urlEncode entropy)⟩

/-! ## The `pkce` helper library (pkce 1.0.3) -/

/-- `pkce.generate_code_verifier`: `secrets.token_urlsafe(96)[:length]` after a
bounds check on `length`; the 96 random bytes are the `entropy` argument. -/
def generate_code_verifier (length : Nat) (entropy : List Nat) : Except String String :=
  if 43 ≤ length ∧ length ≤ 128 then
    .ok ⟨(rstripEq (b64urlEncode entropy)).take length⟩
  else
    .error "Parameter `length` must verify `43 <= length <= 128`."

/-- `str.encode("ascii")`: the code points as bytes, failing on any
character outside the ASCII range. -/
def asciiEncode (s : String) : Except String (List Nat) :=
  if s.toList.all (fun c => decide (c.toNat < 128)) then
    .ok (s.toList.map Char.toNat)
  else
    .error "ascii codec cannot encode"

/-- `pkce.get_code_challenge`: bounds-check the verifier, SHA-256 its ASCII
bytes, base64url-encode the digest and drop the `=` padding. -/
def get_code_challenge (code_verifier : String) : Except String String :=
  if 43 ≤ code_verifier.length ∧ code_verifier.length ≤ 128 then
    match asciiEncode code_verifier with
    | .error e => .error e
    | .ok bytes => .ok ⟨stripPad (b64urlEncode (sha256 bytes))⟩
  else
    .error "Parameter `code_verifier` must verify `43 <= len(code_verifier) <= 128`."

/-! ## `urllib.parse` (CPython 3.12): percent decoding, query parsing -/

/-- The value of a hex digit character, in either case. -/
def hexDigitVal (c : Char) : Option Nat :=
  if 48 ≤ c.toNat ∧ c.toNat ≤ 57 then some (c.toNat - 48)
  else if 97 ≤ c.toNat ∧ c.toNat ≤ 102 then some (c.toNat - 87)
  else if 65 ≤ c.toNat ∧ c.toNat ≤ 70 then some (c.toNat - 55)
  else none

/-- One token of the percent-decoding scan: a literal character, or one byte
decoded from a valid `%XX` escape. -/
inductive QTok where
  | raw (c : Char)
  | byte (b : Nat)
deriving DecidableEq, Repr

/-- The percent-decoding scan, driven by a fuel counter so the recursion is
structural; every step consumes at least one character, so any fuel of at
least the list length gives the full scan (`qtokensF_fuel_irrelevant`). -/
def qtokensF : Nat → List Char → List QTok
  | _, [] => []
  | 0, l => l.map .raw
  | fuel + 1, c :: rest =>
    if c = '%' then
      match rest with
      | c1 :: c2 :: rest2 =>
        match hexDigitVal c1, hexDigitVal c2 with
        | some h1, some h2 => .byte (16 * h1 + h2) :: qtokensF fuel rest2
        | _, _ => .raw '%' :: qtokensF fuel rest
      | _ => .raw c :: qtokensF fuel rest
    else .raw c :: qtokensF fuel rest

/-- Scan a string into literal characters and decoded `%XX` bytes; an invalid
escape leaves the `%` as a literal, as `urllib.parse.unquote` does. -/
def qtokens (l : List Char) : List QTok := qtokensF l.length l

/-- The lower bound of the second byte of a multi-byte UTF-8 sequence, which
depends on the lead byte (E0 requires A0.., F0 requires 90..). -/
def utf8lo2 (b : Nat) : Nat := if b = 224 then 160 else if b = 240 then 144 else 128

/-- The upper bound of the second byte of a multi-byte UTF-8 sequence, which
depends on the lead byte (ED allows ..9F, F4 allows ..8F). -/
def utf8hi2 (b : Nat) : Nat := if b = 237 then 159 else if b = 244 then 143 else 191

/-- UTF-8 decoding with `errors="replace"` (one U+FFFD per maximal invalid
subpart, as the CPython decoder emits), driven by a fuel counter so the
recursion is structural; every step consumes at least one byte, so any fuel
of at least the list length gives the full decoding
(`utf8DecodeReplaceF_fuel_irrelevant`). -/
def utf8DecodeReplaceF : Nat → List Nat → List Char
  | _, [] => []
  | 0, l => l.map (fun _ => Char.ofNat 65533)
  | fuel + 1, b :: rest =>
    if b < 128 then Char.ofNat b :: utf8DecodeReplaceF fuel rest
    else if 194 ≤ b ∧ b ≤ 223 then
      match rest with
      | [] => [Char.ofNat 65533]
      | b1 :: rest1 =>
        if 128 ≤ b1 ∧ b1 ≤ 191 then
          Char.ofNat ((b - 192) * 64 + (b1 - 128)) :: utf8DecodeReplaceF fuel rest1
        else Char.ofNat 65533 :: utf8DecodeReplaceF fuel rest
    else if 224 ≤ b ∧ b ≤ 239 then
      match rest with
      | [] => [Char.ofNat 65533]
      | b1 :: rest1 =>
        if utf8lo2 b ≤ b1 ∧ b1 ≤ utf8hi2 b then
          match rest1 with
          | [] => [Char.ofNat 65533]
          | b2 :: rest2 =>
            if 128 ≤ b2 ∧ b2 ≤ 191 then
              Char.ofNat ((b - 224) * 4096 + (b1 - 128) * 64 + (b2 - 128)) ::
                utf8DecodeReplaceF fuel rest2
            else Char.ofNat 65533 :: utf8DecodeReplaceF fuel rest1
        else Char.ofNat 65533 :: utf8DecodeReplaceF fuel rest
    else if 240 ≤ b ∧ b ≤ 244 then
      match rest with
      | [] => [Char.ofNat 65533]
      | b1 :: rest1 =>
        if utf8lo2 b ≤ b1 ∧ b1 ≤ utf8hi2 b then
          match rest1 with
          | [] => [Char.ofNat 65533]
          | b2 :: rest2 =>
            if 128 ≤ b2 ∧ b2 ≤ 191 then
              match rest2 with
              | [] => [Char.ofNat 65533]
              | b3 :: rest3 =>
                if 128 ≤ b3 ∧ b3 ≤ 191 then
                  Char.ofNat ((b - 240) * 262144 + (b1 - 128) * 4096 +
                      (b2 - 128) * 64 + (b3 - 128)) :: utf8DecodeReplaceF fuel rest3
                else Char.ofNat 65533 :: utf8DecodeReplaceF fuel rest2
            else Char.ofNat 65533 :: utf8DecodeReplaceF fuel rest1
        else Char.ofNat 65533 :: utf8DecodeReplaceF fuel rest
    else Char.ofNat 65533 :: utf8DecodeReplaceF fuel rest

/-- UTF-8 decoding with `errors="replace"`. -/
def utf8DecodeReplace (l : List Nat) : List Char := utf8DecodeReplaceF l.length l

/-- Assemble the scanned tokens: runs of consecutive decoded bytes are
UTF-8-decoded together (`pend` is the open run), literals pass through. -/
def unqAssemble : List QTok → List Nat → List Char
  | [], pend => utf8DecodeReplace pend
  | .raw c :: rest, pend => utf8DecodeReplace pend ++ c :: unqAssemble rest []
  | .byte b :: rest, pend => unqAssemble rest (pend ++ [b])

/-- `urllib.parse.unquote` with the default UTF-8 `errors="replace"` handling. -/
def unquote (s : String) : String := ⟨unqAssemble (qtokens s.toList) []⟩

/-- `str.replace("+", " ")`, applied by `parse_qsl` before unquoting. -/
def plusToSpace (s : String) : String :=
  ⟨s.toList.map (fun c => if c = '+' then ' ' else c)⟩

/-- `str.split(sep)` for a one-character separator: every occurrence splits,
empty pieces are kept. -/
def splitOnChar (sep : Char) : List Char → List (List Char)
  | [] => [[]]
  | c :: rest =>
    let r := splitOnChar sep rest
    if c = sep then [] :: r
    else
      match r with
      | h :: t => (c :: h) :: t
      | [] => [[c]]

/-- `str.split("=", 1)`: the name and value of one chunk, or `none` when the
chunk has no `=`. -/
def splitFirstEq : List Char → Option (List Char × List Char)
  | [] => none
  | c :: rest =>
    if c = '=' then some ([], rest)
    else (splitFirstEq rest).map (fun p => (c :: p.1, p.2))

/-- One `name=value` chunk of `parse_qsl` with the default settings: chunks
without `=` and chunks with an empty value are dropped
(`keep_blank_values=False`), then `+` becomes space and both sides are
unquoted. -/
def qslChunk (chunk : List Char) : Option (String × String) :=
  if chunk = [] then none
  else
    match splitFirstEq chunk with
    | none => none
    | some (n, v) =>
      if v = [] then none
      else some (unquote (plusToSpace ⟨n⟩), unquote (plusToSpace ⟨v⟩))

/-- `urllib.parse.parse_qsl` with default arguments, as the ordered list of
decoded (name, value) pairs. -/
def parse_qsl (qs : String) : List (String × String) :=
  (splitOnChar '&' qs.toList).filterMap qslChunk

/-- Insertion into the `parse_qs` result dictionary: appending to the value
list of the first entry with this key, or a new entry at the end, as Python
dict insertion order behaves. -/
def insertPair : List (String × List String) → String → String → List (String × List String)
  | [], k, v => [(k, [v])]
  | (k1, vs) :: rest, k, v =>
    if k1 = k then (k1, vs ++ [v]) :: rest
    else (k1, vs) :: insertPair rest k v

/-- `urllib.parse.parse_qs` with default arguments: the pairs of `parse_qsl`
grouped by name, value lists in occurrence order. -/
def parse_qs (qs : String) : List (String × List String) :=
  (parse_qsl qs).foldl (fun acc kv => insertPair acc kv.1 kv.2) []

/-- `query_params[k][0]` guarded by `k in query_params`: the head of the value
group of `k`, when present.  Every group `parse_qs` builds is non-empty
(`parse_qs_groups_ne_nil` below), so this is exactly the source access. -/
def qsFirst (m : List (String × List String)) (k : String) : Option String :=
  match m.find? (fun p => p.1 == k) with
  | some (_, v :: _) => some v
  | _ => none

/-! ## `urllib.parse.urlsplit`: extraction of the query component -/

/-- Split before and after the first occurrence of `sep`; `none` when absent. -/
def splitFirstChar (sep : Char) : List Char → List Char × Option (List Char)
  | [] => ([], none)
  | c :: rest =>
    if c = sep then ([], some rest)
    else
      let r := splitFirstChar sep rest
      (c :: r.1, r.2)

/-- Membership of a character in the scheme alphabet (letters, digits, `+`,
`-`, `.`). -/
def schemeChar (c : Char) : Bool :=
  decide ((65 ≤ c.toNat ∧ c.toNat ≤ 90) ∨ (97 ≤ c.toNat ∧ c.toNat ≤ 122) ∨
    (48 ≤ c.toNat ∧ c.toNat ≤ 57) ∨ c = '+' ∨ c = '-' ∨ c = '.')

/-- ASCII letter test, as `str.isascii() and str.isalpha()` on one character. -/
def asciiAlpha (c : Char) : Bool :=
  decide ((65 ≤ c.toNat ∧ c.toNat ≤ 90) ∨ (97 ≤ c.toNat ∧ c.toNat ≤ 122))

/-- Drop a leading `scheme:` when the candidate scheme is well formed
(first character an ASCII letter, the rest scheme characters), as
`urlsplit` does; otherwise leave the URL untouched. -/
def dropScheme (l : List Char) : List Char :=
  match splitFirstChar ':' l with
  | (before, some after) =>
    match before with
    | [] => l
    | c0 :: cs => if asciiAlpha c0 && cs.all schemeChar then after else l
  | (_, none) => l

/-- Cut the authority at the first `/`, `?` or `#`, as `_splitnetloc`:
the authority part and the remainder starting at the delimiter. -/
def splitNetloc : List Char → List Char × List Char
  | [] => ([], [])
  | c :: rest =>
    if c = '/' ∨ c = '?' ∨ c = '#' then ([], c :: rest)
    else
      let r := splitNetloc rest
      (c :: r.1, r.2)

/-- The Python errors raised by the embedded code, by constructor and the
exact message or missing key. -/
inductive PyError where
  | valueError (msg : String)
  | keyError (key : String)
deriving DecidableEq, Repr

/-- Decidable equality of `Except` results, for evaluating the embedding at
concrete inputs. -/
instance {ε α : Type} [DecidableEq ε] [DecidableEq α] : DecidableEq (Except ε α)
  | .ok a, .ok b =>
    if h : a = b then .isTrue (by rw [h]) else .isFalse (by simp [h])
  | .error a, .error b =>
    if h : a = b then .isTrue (by rw [h]) else .isFalse (by simp [h])
  | .ok _, .error _ => .isFalse (by simp)
  | .error _, .ok _ => .isFalse (by simp)

/-- ASCII decimal digit, as `str.isascii() and str.isdigit()` on one
character. -/
def isAsciiDigit (c : Char) : Bool := decide (48 ≤ c.toNat ∧ c.toNat ≤ 57)

/-- ASCII hex digit in either case, the `_HEX_DIGITS` set of `ipaddress`. -/
def isAsciiHexDigit (c : Char) : Bool :=
  isAsciiDigit c || decide (97 ≤ c.toNat ∧ c.toNat ≤ 102) ||
    decide (65 ≤ c.toNat ∧ c.toNat ≤ 70)

/-- The numeric value of an ASCII digit string. -/
def digitsVal (s : List Char) : Nat :=
  s.foldl (fun a c => 10 * a + (c.toNat - 48)) 0

/-- `ipaddress._BaseV4._parse_octet` as validity: non-empty, ASCII digits
only, at most 3 characters, no leading zero unless the octet is `0`, value
at most 255. -/
def isValidOctet (s : List Char) : Bool :=
  match s with
  | [] => false
  | c0 :: rest =>
    (c0 :: rest).all isAsciiDigit && decide (rest.length ≤ 2) &&
      !(decide (1 ≤ rest.length) && c0 == '0') && decide (digitsVal (c0 :: rest) ≤ 255)

/-- `ipaddress.IPv4Address` string validity: exactly four dot-separated valid
octets.  The constructor also rejects a `/` first, which an octet check
subsumes, since `/` is not a digit. -/
def isValidIPv4 (s : List Char) : Bool :=
  match splitOnChar '.' s with
  | [a, b, c, d] => isValidOctet a && isValidOctet b && isValidOctet c && isValidOctet d
  | _ => false

/-- `ipaddress._BaseV6._parse_hextet` as validity: hex digits only, at most
4 characters, and non-empty (`int("", 16)` raises). -/
def isValidHextet (s : List Char) : Bool :=
  !s.isEmpty && s.all isAsciiHexDigit && decide (s.length ≤ 4)

/-- The part rules of `_BaseV6._ip_int_from_string` after the embedded-IPv4
substitution: at most 9 colon-separated parts, at most one interior empty
part (the `::`), an empty endpoint only directly next to it, at most 7 named
parts with a `::` and exactly 8 without, every named part a valid hextet. -/
def isValidIPv6Parts (parts : List (List Char)) : Bool :=
  let n := parts.length
  if decide (9 < n) then false
  else
    match (List.range n).filter
        (fun i => decide (1 ≤ i) && decide (i + 1 < n) && (parts.getD i ['x']).isEmpty) with
    | [] => decide (n = 8) && parts.all isValidHextet
    | [skip] =>
      let headEmpty := (parts.getD 0 ['x']).isEmpty
      let lastEmpty := (parts.getD (n - 1) ['x']).isEmpty
      let hi := if headEmpty then 0 else skip
      let lo := if lastEmpty then 0 else n - skip - 1
      (!headEmpty || decide (skip = 1)) && (!lastEmpty || decide (skip = n - 2)) &&
        decide (hi + lo ≤ 7) &&
        (parts.take hi).all isValidHextet && (parts.reverse.take lo).all isValidHextet
    | _ => false

/-- `_BaseV6._ip_int_from_string` as validity: at least three parts, a
dotted last part converted (when a valid IPv4 address) into two extra
hextets, then the part rules. -/
def isValidIPv6Addr (addr : List Char) : Bool :=
  let parts := splitOnChar ':' addr
  if decide (parts.length < 3) then false
  else
    match parts.getLast? with
    | some lastPart =>
      if lastPart.contains '.' then
        isValidIPv4 lastPart && isValidIPv6Parts (parts.dropLast ++ [['0'], ['0']])
      else isValidIPv6Parts parts
    | none => false

/-- `ipaddress.IPv6Address` string validity: no `/`, an optional non-empty
`%scope` free of further `%` signs, and a valid address body. -/
def isValidIPv6 (s : List Char) : Bool :=
  if s.contains '/' then false
  else
    match splitFirstChar '%' s with
    | (addr, some scope) => !scope.isEmpty && !scope.contains '%' && isValidIPv6Addr addr
    | (addr, none) => isValidIPv6Addr addr

/-- The lower-case hex digits: `0`-`9` then `a`-`f`. -/
def hexLower : List Char :=
  (List.range 16).map (fun n => if n < 10 then Char.ofNat (48 + n) else Char.ofNat (87 + n))

/-- One character of Python `repr` of a string, `q` being the chosen quote:
escape the backslash, the quote, tab, newline and carriage return by name,
the other ASCII controls, DEL, the C1 controls and NBSP as `\xXX`; keep
anything else literally — exact for every printable character, while the
printability classes of higher code points live in the same external
character database as the NFKC table. -/
def pyReprChar (q c : Char) : List Char :=
  if c = '\\' then ['\\', '\\']
  else if c = q then ['\\', q]
  else if c = '\t' then ['\\', 't']
  else if c = '\n' then ['\\', 'n']
  else if c = '\r' then ['\\', 'r']
  else if decide (c.toNat < 32) || decide (127 ≤ c.toNat ∧ c.toNat ≤ 160) then
    ['\\', 'x', hexLower.getD (c.toNat / 16 % 16) '0', hexLower.getD (c.toNat % 16) '0']
  else [c]

/-- Python `repr` of a string: single-quoted, or double-quoted when the
string contains a single quote but no double quote. -/
def pyRepr (s : String) : String :=
  let q := if s.toList.contains (Char.ofNat 39) && !s.toList.contains '"' then '"'
           else Char.ofNat 39
  ⟨q :: ((s.toList.map (pyReprChar q)).flatten ++ [q])⟩

/-- `urllib.parse._check_bracketed_host`: an IPvFuture form
`v<hex>+.<at least one more character>` passes (the regex dot excludes a
newline), an IPv4 address is rejected as bracketed, a valid IPv6 address
passes, and anything else fails with the `ipaddress.ip_address` message. -/
def checkBracketedHost (hostname : List Char) : Except PyError Unit :=
  match hostname with
  | 'v' :: rest =>
    let hexRun := rest.takeWhile isAsciiHexDigit
    let tail := rest.dropWhile isAsciiHexDigit
    if !hexRun.isEmpty then
      match tail with
      | '.' :: tail1 =>
        if !tail1.isEmpty && !tail1.contains '\n' then .ok ()
        else .error (.valueError "IPvFuture address is invalid")
      | _ => .error (.valueError "IPvFuture address is invalid")
    else .error (.valueError "IPvFuture address is invalid")
  | _ =>
    if isValidIPv4 hostname then
      .error (.valueError "An IPv4 address cannot be in brackets")
    else if isValidIPv6 hostname then .ok ()
    else
      .error (.valueError
        (pyRepr ⟨hostname⟩ ++ " does not appear to be an IPv4 or IPv6 address"))

/-- `netloc.partition("[")[2].partition("]")[0]`: what stands between the
first `[` and the first following `]`. -/
def bracketContent (netloc : List Char) : List Char :=
  match (splitFirstChar '[' netloc).2 with
  | some after => (splitFirstChar ']' after).1
  | none => []

/-- `urllib.parse._checknetloc`, with the NFKC normalization of the
`unicodedata` module passed in as `nfkc` — the one piece of the external
Unicode character database the check consults, and only for a non-ASCII
authority: reject a non-ASCII netloc that changes under NFKC normalization
(taken of the netloc minus `@:#?`) and then contains one of `/?#@:`. -/
def checkNetloc (nfkc : String → String) (netloc : List Char) : Except PyError Unit :=
  if netloc.isEmpty || netloc.all (fun c => decide (c.toNat < 128)) then .ok ()
  else
    let n := netloc.filter (fun c => !(c == '@' || c == ':' || c == '#' || c == '?'))
    let n2 := (nfkc ⟨n⟩).toList
    if n2 = n then .ok ()
    else if ['/', '?', '#', '@', ':'].any (fun c => n2.contains c) then
      .error (.valueError ("netloc '" ++ (⟨netloc⟩ : String) ++
        "' contains invalid characters under NFKC normalization"))
    else .ok ()

/-- The query component of `urllib.parse.urlparse(url)` (CPython 3.12), with
the NFKC normalization passed in as `nfkc`: strip leading C0 controls and
spaces, remove every tab, CR and LF, drop a well-formed `scheme:`, cut the
`//authority` — failing as `urlsplit` does on an unbalanced bracket, on a
bracketed host that is neither IPv6 nor IPvFuture, and on a non-ASCII
netloc that gains a delimiter under NFKC — drop the fragment after the
first `#`, and return what follows the first `?`. -/
def urlsplitQuery (nfkc : String → String) (url : String) : Except PyError String :=
  let cleaned := ((url.toList.dropWhile (fun c => decide (c.toNat ≤ 32))).filter
    (fun c => !(c == '\t' || c == '\r' || c == '\n')))
  let afterScheme := dropScheme cleaned
  let nl : List Char × List Char :=
    match afterScheme with
    | '/' :: '/' :: rest => splitNetloc rest
    | other => ([], other)
  let netloc := nl.1
  if (netloc.contains '[' && !(netloc.contains ']')) ||
     (netloc.contains ']' && !(netloc.contains '[')) then
    .error (.valueError "Invalid IPv6 URL")
  else
    match (if netloc.contains '[' && netloc.contains ']' then
            checkBracketedHost (bracketContent netloc)
          else .ok ()) with
    | .error e => .error e
    | .ok _ =>
      match checkNetloc nfkc netloc with
      | .error e => .error e
      | .ok _ =>
        let beforeFrag := (splitFirstChar '#' nl.2).1
        match (splitFirstChar '?' beforeFrag).2 with
        | some q => .ok ⟨q⟩
        | none => .ok ""

/-! ## `urllib.parse.urlencode` with `quote_via=quote_plus` (the default) -/

/-- The UTF-8 bytes of one character. -/
def utf8EncodeChar (c : Char) : List Nat :=
  let n := c.toNat
  if n < 128 then [n]
  else if n < 2048 then [192 + n / 64, 128 + n % 64]
  else if n < 65536 then [224 + n / 4096, 128 + n / 64 % 64, 128 + n % 64]
  else [240 + n / 262144, 128 + n / 4096 % 64, 128 + n / 64 % 64, 128 + n % 64]

/-- The bytes `quote` never escapes: ASCII letters, digits, `_`, `.`, `-`, `~`. -/
def quoteSafeByte (b : Nat) : Bool :=
  decide ((65 ≤ b ∧ b ≤ 90) ∨ (97 ≤ b ∧ b ≤ 122) ∨ (48 ≤ b ∧ b ≤ 57) ∨
    b = 95 ∨ b = 46 ∨ b = 45 ∨ b = 126)

/-- The upper-case hex digits: `0`-`9` then `A`-`F`. -/
def hexUpper : List Char :=
  (List.range 16).map (fun n => if n < 10 then Char.ofNat (48 + n) else Char.ofNat (55 + n))

/-- The `%XX` escape of one byte. -/
def pctEscape (b : Nat) : List Char :=
  ['%', hexUpper.getD (b / 16 % 16) '0', hexUpper.getD (b % 16) '0']

/-- `urllib.parse.quote_plus` with `safe=""`: spaces become `+`, safe bytes
pass through, every other UTF-8 byte is percent-escaped. -/
def quote_plus (s : String) : String :=
  ⟨(s.toList.map (fun c =>
      if c = ' ' then ['+']
      else ((utf8EncodeChar c).map (fun b =>
        if quoteSafeByte b then [Char.ofNat b] else pctEscape b)).flatten)).flatten⟩

/-- `urllib.parse.urlencode` on a list of string pairs with default arguments:
`quote_plus` both sides of every pair, join pairs with `&`. -/
def urlencode (params : List (String × String)) : String :=
  String.intercalate "&" (params.map (fun kv => quote_plus kv.1 ++ "=" ++ quote_plus kv.2))

/-! ## src/app/spotify_auth.py: `SpotifyPKCEAuth` -/

/-- The token dictionary returned by the external OAuth collaborator
(spotipy).  `none` models an absent key: `token_info["access_token"]` raises
`KeyError` when absent, `token_info.get("refresh_token")` yields `None`. -/
structure TokenInfo where
  access_token : Option String
  refresh_token : Option String
deriving DecidableEq, Repr

/-- The constructor arguments of the `SpotifyOAuth` instance the code builds;
the instance itself only matters through the requests it would send, which the
response arguments model, so its state is these arguments. -/
structure SpotifyOAuthArgs where
  client_id : String
  client_secret : Option String
  redirect_uri : String
  scope : String
  state : String
deriving DecidableEq, Repr

/-- The `spotipy.Spotify(auth=access_token)` client handle: a pure factory of
a handle carrying the bearer token. -/
structure SpotifyClient where
  auth : String
deriving DecidableEq, Repr

/-- The mutable attributes of a `SpotifyPKCEAuth` object.  `code_verifier`,
`code_challenge` and `oauth` start as `None`. -/
structure SpotifyPKCEAuth where
  client_id : String
  redirect_uri : String
  scope : String
  state : String
  code_verifier : Option String
  code_challenge : Option String
  oauth : Option SpotifyOAuthArgs
deriving DecidableEq, Repr

/-- `SpotifyPKCEAuth.__init__`: `scope or "user-read-private user-read-email"`
and `state or secrets.token_urlsafe(32)` are Python truthiness tests, so
`None` and the empty string both fall back; `stateEntropy` is the randomness
`token_urlsafe` would consume. -/
def mkSpotifyPKCEAuth (client_id redirect_uri : String) (scope state : Option String)
    (stateEntropy : List Nat) : SpotifyPKCEAuth :=
  { client_id := client_id
    redirect_uri := redirect_uri
    scope := match scope with
      | some s => if s = "" then "user-read-private user-read-email" else s
      | none => "user-read-private user-read-email"
    state := match state with
      | some s => if s = "" then token_urlsafe stateEntropy else s
      | none => token_urlsafe stateEntropy
    code_verifier := none
    code_challenge := none
    oauth := none }

/-- The `code_verifier`/`code_challenge` dictionary `generate_pkce_params`
returns. -/
structure PkceParams where
  code_verifier : String
  code_challenge : String
deriving DecidableEq, Repr

/-- `SpotifyPKCEAuth.generate_pkce_params`: a fresh verifier from 128
characters of `token_urlsafe(96)` output (the 96 random bytes are `entropy`),
the challenge derived from it, both stored and returned. -/
def generate_pkce_params (self : SpotifyPKCEAuth) (entropy : List Nat) :
    Except String (SpotifyPKCEAuth × PkceParams) :=
  match generate_code_verifier 128 entropy with
  | .error e => .error e
  | .ok v =>
    match get_code_challenge v with
    | .error e => .error e
    | .ok c =>
      .ok ({ self with code_verifier := some v, code_challenge := some c },
           { code_verifier := v, code_challenge := c })

/-- `str(x)` on an optional string attribute, as `urlencode` stringifies
values: `None` renders as `"None"`. -/
def pyStr (o : Option String) : String :=
  match o with
  | none => "None"
  | some s => s

/-- The authorize endpoint constant of `get_authorization_url`. -/
def authEndpoint : String := "https://accounts.spotify.com/authorize"

/-- The f-string `f"{auth_url}?{urlencode(params)}"` with the exact `params`
dictionary of `get_authorization_url`, in its insertion order. -/
def buildAuthUrl (self : SpotifyPKCEAuth) : String :=
  authEndpoint ++ "?" ++ urlencode [
    ("client_id", self.client_id),
    ("response_type", "code"),
    ("redirect_uri", self.redirect_uri),
    ("scope", self.scope),
    ("state", self.state),
    ("code_challenge_method", "S256"),
    ("code_challenge", pyStr self.code_challenge)]

/-- `SpotifyPKCEAuth.get_authorization_url`: `if not self.code_challenge`
(Python truthiness, so `None` or empty) generate a fresh PKCE pair first,
then return the authorize URL built from the current attributes. -/
def get_authorization_url (self : SpotifyPKCEAuth) (entropy : List Nat) :
    Except String (SpotifyPKCEAuth × String) :=
  if self.code_challenge = none ∨ self.code_challenge = some "" then
    match generate_pkce_params self entropy with
    | .error e => .error e
    | .ok (s1, _) => .ok (s1, buildAuthUrl s1)
  else
    .ok (self, buildAuthUrl self)

/-- The `SpotifyOAuth(...)` instance `exchange_code_for_tokens` and
`refresh_access_token` construct, from the current attributes. -/
def mkOAuthArgs (self : SpotifyPKCEAuth) : SpotifyOAuthArgs :=
  { client_id := self.client_id
    client_secret := none
    redirect_uri := self.redirect_uri
    scope := self.scope
    state := self.state }

/-- `SpotifyPKCEAuth.exchange_code_for_tokens`: `if not self.code_verifier`
(Python truthiness) raise before any network call; otherwise store the fresh
`SpotifyOAuth` instance and return the token dictionary the external
endpoint answered, which the `response` argument models. -/
def exchange_code_for_tokens (self : SpotifyPKCEAuth) (authorization_code : String)
    (response : TokenInfo) : Except PyError (SpotifyPKCEAuth × TokenInfo) :=
  if self.code_verifier = none ∨ self.code_verifier = some "" then
    .error (.valueError "Code verifier not set. Call get_authorization_url() first.")
  else
    let _ := authorization_code
    .ok ({ self with oauth := some (mkOAuthArgs self) }, response)

/-- `SpotifyPKCEAuth.refresh_access_token`: `if not self.oauth` build the
`SpotifyOAuth` instance first, then return the token dictionary the external
refresh grant answered, which the `response` argument models. -/
def refresh_access_token (self : SpotifyPKCEAuth) (refresh_token : String)
    (response : TokenInfo) : SpotifyPKCEAuth × TokenInfo :=
  let _ := refresh_token
  let s1 := if self.oauth = none then { self with oauth := some (mkOAuthArgs self) } else self
  (s1, response)

/-- `SpotifyPKCEAuth.create_spotify_client`: `spotipy.Spotify(auth=access_token)`. -/
def create_spotify_client (access_token : String) : SpotifyClient :=
  { auth := access_token }

/-- `SpotifyPKCEAuth.validate_authorization_response`: parse the query of the
redirect URL; an `error` parameter raises first, then a missing or mismatched
`state` raises, then a missing `code` yields `None` and otherwise the first
`code` value is returned.  Indexing `query_params[k][0]` is `qsFirst`, sound
because every `parse_qs` group is non-empty (`parse_qs_groups_ne_nil`). -/
def validate_authorization_response (nfkc : String → String) (self : SpotifyPKCEAuth)
    (url : String) : Except PyError (Option String) :=
  match urlsplitQuery nfkc url with
  | .error e => .error e
  | .ok query =>
    let query_params := parse_qs query
    match qsFirst query_params "error" with
    | some error => .error (.valueError ("Authorization error: " ++ error))
    | none =>
      match qsFirst query_params "state" with
      | none => .error (.valueError "Invalid state parameter")
      | some st =>
        if st ≠ self.state then .error (.valueError "Invalid state parameter")
        else
          match qsFirst query_params "code" with
          | none => .ok none
          | some code => .ok (some code)

/-! ## src/app/spotify_auth.py: `SpotifyAuthManager` -/

/-- The mutable attributes of a `SpotifyAuthManager` object. -/
structure SpotifyAuthManager where
  auth_handler : SpotifyPKCEAuth
  access_token : Option String
  refresh_token : Option String
  spotify_client : Option SpotifyClient
deriving DecidableEq, Repr

/-- `SpotifyAuthManager.__init__`: a fresh handler (with no custom state) and
no tokens or client yet. -/
def mkSpotifyAuthManager (client_id redirect_uri : String) (scope : Option String)
    (stateEntropy : List Nat) : SpotifyAuthManager :=
  { auth_handler := mkSpotifyPKCEAuth client_id redirect_uri scope none stateEntropy
    access_token := none
    refresh_token := none
    spotify_client := none }

/-- `SpotifyAuthManager.start_auth_flow`: delegate to
`get_authorization_url`. -/
def start_auth_flow (self : SpotifyAuthManager) (entropy : List Nat) :
    Except String (SpotifyAuthManager × String) :=
  match get_authorization_url self.auth_handler entropy with
  | .error e => .error e
  | .ok (h1, url) => .ok ({ self with auth_handler := h1 }, url)

/-- `SpotifyAuthManager.complete_auth_flow`: validate the redirect URL, raise
on a falsy code (`if not auth_code`), exchange the code (the external token
endpoint answering `response`), store `access_token` (a `KeyError` if the
response lacks it) and `refresh_token := token_info.get("refresh_token")`,
build and store the client, and return it. -/
def complete_auth_flow (nfkc : String → String) (self : SpotifyAuthManager)
    (redirect_url : String) (response : TokenInfo) :
    Except PyError (SpotifyAuthManager × SpotifyClient) :=
  match validate_authorization_response nfkc self.auth_handler redirect_url with
  | .error e => .error e
  | .ok auth_code =>
    if auth_code = none ∨ auth_code = some "" then
      .error (.valueError "No authorization code found in redirect URL")
    else
      match exchange_code_for_tokens self.auth_handler (pyStr auth_code) response with
      | .error e => .error e
      | .ok (h1, token_info) =>
        match token_info.access_token with
        | none => .error (.keyError "access_token")
        | some tok =>
          let client := create_spotify_client tok
          .ok ({ auth_handler := h1
                 access_token := some tok
                 refresh_token := token_info.refresh_token
                 spotify_client := some client }, client)

/-- `SpotifyAuthManager.refresh_auth`: raise on a falsy stored refresh token
(`if not self.refresh_token`), refresh (the external endpoint answering
`response`), store `access_token` unconditionally, store `refresh_token`
only when the response has the key, rebuild and store the client. -/
def refresh_auth (self : SpotifyAuthManager) (response : TokenInfo) :
    Except PyError (SpotifyAuthManager × SpotifyClient) :=
  if self.refresh_token = none ∨ self.refresh_token = some "" then
    .error (.valueError "No refresh token available")
  else
    let hr := refresh_access_token self.auth_handler (pyStr self.refresh_token) response
    match hr.2.access_token with
    | none => .error (.keyError "access_token")
    | some tok =>
      let client := create_spotify_client tok
      .ok ({ auth_handler := hr.1
             access_token := some tok
             refresh_token := if hr.2.refresh_token.isSome then hr.2.refresh_token
                              else self.refresh_token
             spotify_client := some client }, client)

/-- `SpotifyAuthManager.get_spotify_client`. -/
def get_spotify_client (self : SpotifyAuthManager) : Option SpotifyClient :=
  self.spotify_client

/-- `SpotifyAuthManager.is_authenticated`:
`self.spotify_client is not None and self.access_token is not None`. -/
def is_authenticated (self : SpotifyAuthManager) : Bool :=
  self.spotify_client.isSome && self.access_token.isSome

/-! ## src/app/config.py -/

/-- The attributes of a `SpotifyConfig` object. -/
structure SpotifyConfig where
  client_id : String
  redirect_uri : String
  scope : String
deriving DecidableEq, Repr

/-- The default scope of both the configuration and the auth handler. -/
def defaultScope : String := "user-read-private user-read-email"

/-- `str.startswith` on one candidate, over character lists so concrete
evaluation reduces. -/
def listStartsWith : List Char → List Char → Bool
  | _, [] => true
  | [], _ :: _ => false
  | c :: cs, p :: ps => c == p && listStartsWith cs ps

/-- `str.startswith(candidate)`. -/
def pyStartswith (s candidate : String) : Bool :=
  listStartsWith s.toList candidate.toList

/-- `SpotifyConfig.__init__` over an environment (`os.getenv`): required keys
default to the empty string, `SPOTIFY_SCOPE` defaults to the baseline
scopes. -/
def mkSpotifyConfig (env : String → Option String) : SpotifyConfig :=
  { client_id := (env "SPOTIFY_CLIENT_ID").getD ""
    redirect_uri := (env "SPOTIFY_REDIRECT_URI").getD ""
    scope := (env "SPOTIFY_SCOPE").getD defaultScope }

/-- `SpotifyConfig.validate`: empty `client_id` raises, then empty
`redirect_uri`, then a `redirect_uri` starting with neither `http://` nor
`https://`; otherwise `True`. -/
def SpotifyConfig.validate (c : SpotifyConfig) : Except PyError Bool :=
  if c.client_id = "" then .error (.valueError "SPOTIFY_CLIENT_ID is required")
  else if c.redirect_uri = "" then .error (.valueError "SPOTIFY_REDIRECT_URI is required")
  else if !(pyStartswith c.redirect_uri "http://" || pyStartswith c.redirect_uri "https://") then
    .error (.valueError "SPOTIFY_REDIRECT_URI must be a valid URL")
  else .ok true

/-- `load_config`: construct from the environment, validate, and return the
configuration. -/
def load_config (env : String → Option String) : Except PyError SpotifyConfig :=
  let config := mkSpotifyConfig env
  match config.validate with
  | .error e => .error e
  | .ok _ => .ok config

/-! ## Witness fixtures -/

/-- A handler with a known CSRF state and nothing generated yet, as built by
`SpotifyPKCEAuth("cid", "http://localhost:8080/callback", state="S")`. -/
def sampleAuth : SpotifyPKCEAuth :=
  mkSpotifyPKCEAuth "cid" "http://localhost:8080/callback" none (some "S") []

/-- C4 counterexample fixture: a manager that already holds tokens and a
client (its handler carries a generated 128-character verifier). -/
def cexManager4 : SpotifyAuthManager :=
  { auth_handler :=
      { client_id := "cid"
        redirect_uri := "http://localhost:8080/callback"
        scope := defaultScope
        state := "S"
        code_verifier := some ⟨List.replicate 128 'a'⟩
        code_challenge := some "CH"
        oauth := none }
    access_token := some "OLDAT"
    refresh_token := some "OLDRT"
    spotify_client := some ⟨"OLDAT"⟩ }

/-- C6 witness fixture: a manager holding a non-empty refresh token. -/
def mgr6 : SpotifyAuthManager :=
  { auth_handler :=
      { client_id := "cid"
        redirect_uri := "http://localhost:8080/callback"
        scope := defaultScope
        state := "S"
        code_verifier := some ⟨List.replicate 128 'a'⟩
        code_challenge := some "CH"
        oauth := none }
    access_token := some "OLDAT"
    refresh_token := some "RT"
    spotify_client := some ⟨"OLDAT"⟩ }

/-- C6 counterexample fixture: a manager whose stored refresh token is the
empty string. -/
def cexManager6 : SpotifyAuthManager :=
  { auth_handler :=
      { client_id := "cid"
        redirect_uri := "http://localhost:8080/callback"
        scope := defaultScope
        state := "S"
        code_verifier := some ⟨List.replicate 128 'a'⟩
        code_challenge := some "CH"
        oauth := none }
    access_token := some "OLDAT"
    refresh_token := some ""
    spotify_client := some ⟨"OLDAT"⟩ }

/-- C7 witness environment: both required values present and valid, no scope. -/
def env7 : String → Option String := fun k =>
  if k = "SPOTIFY_CLIENT_ID" then some "cid"
  else if k = "SPOTIFY_REDIRECT_URI" then some "http://localhost:8080/callback"
  else none

/-- C8 witness fixture: a handler that already carries a challenge. -/
def authChal : SpotifyPKCEAuth := { sampleAuth with code_challenge := some "CH" }

/-! ## SHA-256 test vectors -/

/-- FIPS 180-4 test vector: the digest of "abc". -/
theorem sha256_vector_abc :
    sha256 [97, 98, 99] =
      [186, 120, 22, 191, 143, 1, 207, 234, 65, 65, 64, 222, 93, 174, 34, 35,
       176, 3, 97, 163, 150, 23, 122, 156, 180, 16, 255, 97, 242, 0, 21, 173] := by
  decide

/-- The digest of the empty message, as a second independent test vector. -/
theorem sha256_vector_empty :
    sha256 [] =
      [227, 176, 196, 66, 152, 252, 28, 20, 154, 251, 244, 200, 153, 111, 185, 36,
       39, 174, 65, 228, 100, 155, 147, 76, 164, 149, 153, 27, 120, 82, 184, 85] := by
  decide

/-! ## The fuel of the two scanners is irrelevant once sufficient -/

/-- Any fuel of at least the list length gives the same scan, so the
`l.length` the wrapper passes is enough and the zero-fuel fallback is
unreachable. -/
theorem qtokensF_fuel_irrelevant : ∀ (f1 : Nat) (l : List Char) (f2 : Nat),
    l.length ≤ f1 → l.length ≤ f2 → qtokensF f1 l = qtokensF f2 l := by
  intro f1
  induction f1 with
  | zero =>
    intro l f2 h1 _
    have hnil : l = [] := List.length_eq_zero.mp (by omega)
    subst hnil
    cases f2 <;> simp [qtokensF]
  | succ a ih =>
    intro l f2 h1 h2
    cases l with
    | nil => cases f2 <;> simp [qtokensF]
    | cons c rest =>
      cases f2 with
      | zero => simp at h2
      | succ b =>
        simp only [List.length_cons] at h1 h2
        by_cases hc : c = '%'
        · cases rest with
          | nil => simp [qtokensF, hc]
          | cons c1 rest1 =>
            cases rest1 with
            | cons c2 rest2 =>
              simp only [List.length_cons] at h1 h2
              cases hx1 : hexDigitVal c1 with
              | some v1 =>
                cases hx2 : hexDigitVal c2 with
                | some v2 =>
                  simp only [qtokensF, hc, if_pos, hx1, hx2]
                  rw [ih rest2 b (by omega) (by omega)]
                | none =>
                  simp only [qtokensF, hc, if_pos, hx1, hx2]
                  rw [ih (c1 :: c2 :: rest2) b (by simp; omega) (by simp; omega)]
              | none =>
                simp only [qtokensF, hc, if_pos, hx1]
                rw [ih (c1 :: c2 :: rest2) b (by simp; omega) (by simp; omega)]
            | nil =>
              simp only [qtokensF, hc]
              rw [ih [c1] b (by simp at h1 ⊢; omega) (by simp at h2 ⊢; omega)]
        · simp only [qtokensF, if_neg hc]
          rw [ih rest b (by omega) (by omega)]

/-- Any fuel of at least the list length gives the same decoding, so the
`l.length` the wrapper passes is enough and the zero-fuel fallback is
unreachable. -/
theorem utf8DecodeReplaceF_fuel_irrelevant : ∀ (f1 : Nat) (l : List Nat) (f2 : Nat),
    l.length ≤ f1 → l.length ≤ f2 → utf8DecodeReplaceF f1 l = utf8DecodeReplaceF f2 l := by
  intro f1
  induction f1 with
  | zero =>
    intro l f2 h1 _
    have hnil : l = [] := List.length_eq_zero.mp (by omega)
    subst hnil
    cases f2 <;> simp [utf8DecodeReplaceF]
  | succ a ih =>
    intro l f2 h1 h2
    cases l with
    | nil => cases f2 <;> simp [utf8DecodeReplaceF]
    | cons b rest =>
      cases f2 with
      | zero => simp at h2
      | succ d =>
        simp only [List.length_cons] at h1 h2
        cases rest with
        | nil => simp [utf8DecodeReplaceF]
        | cons b1 rest1 =>
          simp only [List.length_cons] at h1 h2
          cases rest1 with
          | nil =>
            simp only [utf8DecodeReplaceF]
            split_ifs <;>
              first
                | rfl
                | (congr 1; apply ih <;>
                    first
                      | omega
                      | (simp only [List.length_cons]; omega))
          | cons b2 rest2 =>
            simp only [List.length_cons] at h1 h2
            cases rest2 with
            | nil =>
              simp only [utf8DecodeReplaceF]
              split_ifs <;>
                first
                  | rfl
                  | (congr 1; apply ih <;>
                      first
                        | omega
                        | (simp only [List.length_cons]; omega))
            | cons b3 rest3 =>
              simp only [List.length_cons] at h1 h2
              simp only [utf8DecodeReplaceF]
              split_ifs <;>
                first
                  | rfl
                  | (congr 1; apply ih <;>
                      first
                        | omega
                        | (simp only [List.length_cons]; omega))

/-! ## C1: the error parameter takes precedence -/

/-- C1: on every redirect URL whose parsed query contains an `error`
parameter, `validate_authorization_response` raises the authorization error
carrying the provider error code (the first `error` value), before the state
check and the code extraction — in particular even when a valid `code` is
present. -/
theorem claim1_error_precedence (nfkc : String → String) (self : SpotifyPKCEAuth)
    (url q e : String)
    (hq : urlsplitQuery nfkc url = .ok q)
    (herr : qsFirst (parse_qs q) "error" = some e) :
    validate_authorization_response nfkc self url =
      .error (.valueError ("Authorization error: " ++ e)) := by
  simp [validate_authorization_response, hq, herr]

/-- C1 witness: a URL carrying `error=access_denied` together with a valid
code and a matching state still fails with the authorization error. -/
theorem claim1_witness :
    validate_authorization_response id sampleAuth
      "http://localhost:8080/callback?error=access_denied&code=ABC&state=S" =
      .error (.valueError "Authorization error: access_denied") :=
  claim1_error_precedence id sampleAuth
    "http://localhost:8080/callback?error=access_denied&code=ABC&state=S"
    "error=access_denied&code=ABC&state=S" "access_denied" (by decide) (by decide)

/-! ## C2: missing or mismatched state fails the CSRF check -/

/-- C2: on every redirect URL with no `error` parameter whose `state`
parameter is missing, or differs (as exact string equality on the decoded
value) from the stored state, `validate_authorization_response` raises the
CSRF mismatch error — whether or not a `code` parameter is present. -/
theorem claim2_csrf_mismatch (nfkc : String → String) (self : SpotifyPKCEAuth)
    (url q : String)
    (hq : urlsplitQuery nfkc url = .ok q)
    (herr : qsFirst (parse_qs q) "error" = none) :
    (qsFirst (parse_qs q) "state" = none →
      validate_authorization_response nfkc self url =
        .error (.valueError "Invalid state parameter"))
    ∧ (∀ st, qsFirst (parse_qs q) "state" = some st → st ≠ self.state →
      validate_authorization_response nfkc self url =
        .error (.valueError "Invalid state parameter")) := by
  constructor
  · intro hst
    simp [validate_authorization_response, hq, herr, hst]
  · intro st hst hne
    simp [validate_authorization_response, hq, herr, hst, hne]

/-- C2 witness: a mismatched state fails even though a code is present. -/
theorem claim2_witness :
    validate_authorization_response id sampleAuth
      "http://localhost:8080/callback?code=ABC&state=BAD" =
      .error (.valueError "Invalid state parameter") :=
  (claim2_csrf_mismatch id sampleAuth
      "http://localhost:8080/callback?code=ABC&state=BAD"
      "code=ABC&state=BAD" (by decide) (by decide)).2
    "BAD" (by decide) (by decide)

/-! ## C3: matching state returns the code, or nothing when absent -/

/-- C3: on every redirect URL with no `error` parameter whose first `state`
value equals the stored state exactly, `validate_authorization_response`
returns the `code` value when one is present and `None` (not an error) when
none is. -/
theorem claim3_code_extraction (nfkc : String → String) (self : SpotifyPKCEAuth)
    (url q : String)
    (hq : urlsplitQuery nfkc url = .ok q)
    (herr : qsFirst (parse_qs q) "error" = none)
    (hst : qsFirst (parse_qs q) "state" = some self.state) :
    (∀ c, qsFirst (parse_qs q) "code" = some c →
      validate_authorization_response nfkc self url = .ok (some c))
    ∧ (qsFirst (parse_qs q) "code" = none →
      validate_authorization_response nfkc self url = .ok none) := by
  constructor
  · intro c hc
    simp [validate_authorization_response, hq, herr, hst, hc]
  · intro hc
    simp [validate_authorization_response, hq, herr, hst, hc]

/-- C3 witness: `state=S&code=ABC` returns `ABC`, and with the code dropped
the result is `None` rather than an error. -/
theorem claim3_witness :
    validate_authorization_response id sampleAuth
      "http://localhost:8080/callback?state=S&code=ABC" = .ok (some "ABC")
    ∧ validate_authorization_response id sampleAuth
      "http://localhost:8080/callback?state=S" = .ok none :=
  ⟨(claim3_code_extraction id sampleAuth
      "http://localhost:8080/callback?state=S&code=ABC"
      "state=S&code=ABC" (by decide) (by decide) (by decide)).1 "ABC" (by decide),
   (claim3_code_extraction id sampleAuth
      "http://localhost:8080/callback?state=S"
      "state=S" (by decide) (by decide) (by decide)).2 (by decide)⟩

/-! ## C5: exchanging a code before a verifier exists fails locally -/

/-- C5: with no verifier generated (`code_verifier` still `None`),
`exchange_code_for_tokens` raises the precondition error for every
authorization code and whatever the token endpoint would have answered —
the same error for every possible response, so the external endpoint is
never consulted. -/
theorem claim5_verifier_precondition (self : SpotifyPKCEAuth) (code : String)
    (response : TokenInfo) (hv : self.code_verifier = none) :
    exchange_code_for_tokens self code response =
      .error (.valueError "Code verifier not set. Call get_authorization_url() first.") := by
  simp [exchange_code_for_tokens, hv]

/-- C5 witness: the freshly constructed handler refuses the exchange. -/
theorem claim5_witness :
    exchange_code_for_tokens sampleAuth "ABC" ⟨some "AT", some "RT"⟩ =
      .error (.valueError "Code verifier not set. Call get_authorization_url() first.") :=
  claim5_verifier_precondition sampleAuth "ABC" ⟨some "AT", some "RT"⟩ (by decide)

/-! ## C4: the complete flow (amended: the response refresh token is stored
unconditionally, clearing any previously stored one when absent) -/

/-- C4 (amended): `complete_auth_flow` first validates the redirect (an
error there propagates unchanged, so the exchange never runs), fails with
the incomplete-authorization error when validation yields no code, and on
success stores the access token, sets `refresh_token` to the refresh token
of the response — clearing a previously stored one when the response has
none — builds and stores the client handle and returns it; and
`is_authenticated` is false on a freshly constructed manager and true on
the manager a successful completion leaves behind. -/
theorem claim4_complete_flow :
    (∀ (nfkc : String → String) (m : SpotifyAuthManager) (url : String)
        (resp : TokenInfo) (e : PyError),
      validate_authorization_response nfkc m.auth_handler url = .error e →
      complete_auth_flow nfkc m url resp = .error e)
    ∧ (∀ (nfkc : String → String) (m : SpotifyAuthManager) (url : String) (resp : TokenInfo),
      validate_authorization_response nfkc m.auth_handler url = .ok none →
      complete_auth_flow nfkc m url resp =
        .error (.valueError "No authorization code found in redirect URL"))
    ∧ (∀ (nfkc : String → String) (m : SpotifyAuthManager) (url code : String)
        (resp : TokenInfo) (tok : String),
      validate_authorization_response nfkc m.auth_handler url = .ok (some code) →
      code ≠ "" →
      m.auth_handler.code_verifier ≠ none →
      m.auth_handler.code_verifier ≠ some "" →
      resp.access_token = some tok →
      complete_auth_flow nfkc m url resp =
        .ok ({ auth_handler := { m.auth_handler with oauth := some (mkOAuthArgs m.auth_handler) }
               access_token := some tok
               refresh_token := resp.refresh_token
               spotify_client := some (create_spotify_client tok) },
             create_spotify_client tok))
    ∧ (∀ (client_id redirect_uri : String) (scope : Option String) (ent : List Nat),
      is_authenticated (mkSpotifyAuthManager client_id redirect_uri scope ent) = false)
    ∧ (∀ (nfkc : String → String) (m : SpotifyAuthManager) (url : String) (resp : TokenInfo)
        (m2 : SpotifyAuthManager) (c : SpotifyClient),
      complete_auth_flow nfkc m url resp = .ok (m2, c) →
      is_authenticated m2 = true) := by
  refine ⟨?_, ?_, ?_, ?_, ?_⟩
  · intro nfkc m url resp e hval
    simp [complete_auth_flow, hval]
  · intro nfkc m url resp hval
    simp [complete_auth_flow, hval]
  · intro nfkc m url code resp tok hval hcode hv1 hv2 hat
    simp [complete_auth_flow, hval, hcode, exchange_code_for_tokens, hv1, hv2, hat, pyStr]
  · intro client_id redirect_uri scope ent
    simp [is_authenticated, mkSpotifyAuthManager]
  · intro nfkc m url resp m2 c h
    unfold complete_auth_flow at h
    repeat' split at h
    all_goals simp at h
    obtain ⟨h1, h2⟩ := h
    subst h1
    simp [is_authenticated]

/-- C4 counterexample: completing a second flow whose token response has no
refresh token succeeds but CLEARS the previously stored refresh token —
the claim says a response without a refresh token leaves the stored one
alone, but `complete_auth_flow` assigns `token_info.get("refresh_token")`
unconditionally. -/
theorem claim4_counterexample :
    cexManager4.refresh_token = some "OLDRT"
    ∧ (⟨some "AT2", none⟩ : TokenInfo).refresh_token = none
    ∧ (complete_auth_flow id cexManager4 "http://localhost:8080/callback?code=NEW&state=S"
        ⟨some "AT2", none⟩).map (fun p => p.1.refresh_token) = .ok none := by
  decide

/-- C4 witness: a fresh manager is unauthenticated, and completing the flow
on a valid redirect with a full token response stores both tokens and the
client and returns the client. -/
theorem claim4_witness :
    is_authenticated (mkSpotifyAuthManager "cid" "http://localhost:8080/callback" none []) = false
    ∧ complete_auth_flow id cexManager4 "http://localhost:8080/callback?code=NEW&state=S"
        ⟨some "AT2", some "RT2"⟩ =
      .ok ({ auth_handler :=
               { cexManager4.auth_handler with oauth := some (mkOAuthArgs cexManager4.auth_handler) }
             access_token := some "AT2"
             refresh_token := some "RT2"
             spotify_client := some (create_spotify_client "AT2") },
           create_spotify_client "AT2") :=
  ⟨claim4_complete_flow.2.2.2.1 "cid" "http://localhost:8080/callback" none [],
   claim4_complete_flow.2.2.1 id cexManager4 "http://localhost:8080/callback?code=NEW&state=S"
     "NEW" ⟨some "AT2", some "RT2"⟩ "AT2" (by decide) (by decide) (by decide) (by decide) rfl⟩

/-! ## C6: refresh (amended: an empty-string stored refresh token is treated
as absent, by Python truthiness) -/

/-- C6 (amended): `refresh_auth` with no stored refresh token — `None` or,
by the same truthiness test, the empty string — fails with the
no-refresh-token error, returning before anything is touched; with a stored
non-empty refresh token it stores the access token of the response
unconditionally, replaces the stored refresh token only when the response
carries one (the old one is retained otherwise), and rebuilds the stored
client handle. -/
theorem claim6_refresh :
    (∀ (m : SpotifyAuthManager) (resp : TokenInfo), m.refresh_token = none →
      refresh_auth m resp = .error (.valueError "No refresh token available"))
    ∧ (∀ (m : SpotifyAuthManager) (resp : TokenInfo), m.refresh_token = some "" →
      refresh_auth m resp = .error (.valueError "No refresh token available"))
    ∧ (∀ (m : SpotifyAuthManager) (resp : TokenInfo) (rt tok : String),
      m.refresh_token = some rt → rt ≠ "" → resp.access_token = some tok →
      refresh_auth m resp =
        .ok ({ auth_handler :=
                 if m.auth_handler.oauth = none then
                   { m.auth_handler with oauth := some (mkOAuthArgs m.auth_handler) }
                 else m.auth_handler
               access_token := some tok
               refresh_token := if resp.refresh_token.isSome then resp.refresh_token
                                else some rt
               spotify_client := some (create_spotify_client tok) },
             create_spotify_client tok)) := by
  refine ⟨?_, ?_, ?_⟩
  · intro m resp h
    simp [refresh_auth, h]
  · intro m resp h
    simp [refresh_auth, h]
  · intro m resp rt tok hrt hne hat
    simp [refresh_auth, hrt, hne, refresh_access_token, hat, pyStr]

/-- C6 witness: refreshing with a stored non-empty token and a response that
has a fresh access token but no refresh token keeps the old refresh token,
replaces the access token and rebuilds the client. -/
theorem claim6_witness :
    refresh_auth mgr6 ⟨some "AT2", none⟩ =
      .ok ({ auth_handler := { mgr6.auth_handler with oauth := some (mkOAuthArgs mgr6.auth_handler) }
             access_token := some "AT2"
             refresh_token := some "RT"
             spotify_client := some (create_spotify_client "AT2") },
           create_spotify_client "AT2") :=
  claim6_refresh.2.2 mgr6 ⟨some "AT2", none⟩ "RT" "AT2" rfl (by decide) rfl

/-- C6 counterexample: with an empty-string refresh token stored (a value,
not `None`) and a well-formed token response available, `refresh_auth`
raises the no-refresh-token error instead of refreshing — the claim says a
stored refresh token leads to a refresh, but `if not self.refresh_token`
treats the empty string as absent. -/
theorem claim6_counterexample :
    cexManager6.refresh_token = some ""
    ∧ cexManager6.refresh_token ≠ none
    ∧ refresh_auth cexManager6 ⟨some "AT2", some "RT2"⟩ =
        .error (.valueError "No refresh token available") := by
  decide

/-! ## C7: configuration loading -/

/-- C7: `load_config` fails exactly when the client id is missing or empty,
the redirect URI is missing or empty, or the redirect URI starts with
neither `http://` nor `https://`; an unset `SPOTIFY_SCOPE` defaults to the
two baseline scopes; and a successful load returns exactly the configuration
read from the environment. -/
theorem claim7_config (env : String → Option String) :
    ((∃ e, load_config env = .error e) ↔
      ((env "SPOTIFY_CLIENT_ID").getD "" = ""
       ∨ (env "SPOTIFY_REDIRECT_URI").getD "" = ""
       ∨ (pyStartswith ((env "SPOTIFY_REDIRECT_URI").getD "") "http://" = false
          ∧ pyStartswith ((env "SPOTIFY_REDIRECT_URI").getD "") "https://" = false)))
    ∧ (env "SPOTIFY_SCOPE" = none → (mkSpotifyConfig env).scope = defaultScope)
    ∧ (∀ c, load_config env = .ok c → c = mkSpotifyConfig env) := by
  refine ⟨?_, ?_, ?_⟩
  · by_cases h1 : (env "SPOTIFY_CLIENT_ID").getD "" = ""
    · simp [load_config, SpotifyConfig.validate, mkSpotifyConfig, h1]
    · by_cases h2 : (env "SPOTIFY_REDIRECT_URI").getD "" = ""
      · simp [load_config, SpotifyConfig.validate, mkSpotifyConfig, h1, h2]
      · by_cases h3 : pyStartswith ((env "SPOTIFY_REDIRECT_URI").getD "") "http://" = false
          ∧ pyStartswith ((env "SPOTIFY_REDIRECT_URI").getD "") "https://" = false
        · simp [load_config, SpotifyConfig.validate, mkSpotifyConfig, h1, h2, h3.1, h3.2]
        · simp only [not_and_or, Bool.not_eq_false] at h3
          rcases h3 with h3 | h3 <;>
            simp [load_config, SpotifyConfig.validate, mkSpotifyConfig, h1, h2, h3]
  · intro h
    simp [mkSpotifyConfig, h]
  · intro c h
    unfold load_config at h
    dsimp only at h
    split at h
    · simp at h
    · simpa using h.symm

/-- C7 witness: an empty environment fails, and a valid environment without
`SPOTIFY_SCOPE` gets the baseline default scope. -/
theorem claim7_witness :
    (∃ e, load_config (fun _ => none) = .error e)
    ∧ (mkSpotifyConfig env7).scope = defaultScope :=
  ⟨(claim7_config (fun _ => none)).1.mpr (by decide),
   (claim7_config env7).2.1 (by decide)⟩

/-! ## The `parse_qs` grouping seen through first occurrences -/

/-- Inserting under key `k` leaves the first value group of `k` with its old
head, or starts it with the new value when there was none. -/
theorem qsFirst_insertPair_self (acc : List (String × List String)) (k v : String) :
    qsFirst (insertPair acc k v) k = some ((qsFirst acc k).getD v) := by
  induction acc with
  | nil => simp [insertPair, qsFirst]
  | cons hd tl ih =>
    obtain ⟨k1, vs⟩ := hd
    by_cases hk : k1 = k
    · subst hk
      cases vs <;> simp [insertPair, qsFirst]
    · have hb : (k1 == k) = false := by simpa using hk
      simp only [insertPair, if_neg hk]
      simpa [qsFirst, List.find?, hb] using ih

/-- Inserting under key `k` does not change the first value group of any
other key. -/
theorem qsFirst_insertPair_ne (acc : List (String × List String)) (k v k2 : String)
    (hne : k2 ≠ k) :
    qsFirst (insertPair acc k v) k2 = qsFirst acc k2 := by
  induction acc with
  | nil => simp [insertPair, qsFirst, List.find?, (by simpa using hne.symm : (k == k2) = false)]
  | cons hd tl ih =>
    obtain ⟨k1, vs⟩ := hd
    by_cases hk : k1 = k
    · subst hk
      have hb : (k1 == k2) = false := by simpa using hne.symm
      simp [insertPair, qsFirst, List.find?, hb]
    · by_cases hk2 : k1 = k2
      · subst hk2
        simp [insertPair, if_neg hk, qsFirst, List.find?]
      · have hb : (k1 == k2) = false := by simpa using hk2
        simp only [insertPair, if_neg hk]
        simpa [qsFirst, List.find?, hb] using ih

/-- Folding pairs into the dictionary: the head of a value group is the value
already present, or else the value of the first remaining pair with that key. -/
theorem qsFirst_foldl (l : List (String × String)) (acc : List (String × List String))
    (k : String) :
    qsFirst (l.foldl (fun a kv => insertPair a kv.1 kv.2) acc) k =
      ((qsFirst acc k).orElse (fun _ => (l.find? (fun p => p.1 == k)).map (fun p => p.2))) := by
  induction l generalizing acc with
  | nil => cases h : qsFirst acc k <;> simp [Option.orElse, h]
  | cons hd tl ih =>
    obtain ⟨k1, v1⟩ := hd
    by_cases hk : k1 = k
    · rw [List.foldl_cons, ih, hk, qsFirst_insertPair_self]
      cases h : qsFirst acc k <;> simp [Option.orElse, h, List.find?]
    · have hb : (k1 == k) = false := by simpa using hk
      rw [List.foldl_cons, ih]
      rw [qsFirst_insertPair_ne _ _ _ _ (fun he => hk he.symm)]
      simp [List.find?, hb]

/-- `parse_qs(qs)[k][0]` is exactly the value of the first `k` pair that
`parse_qsl` produced. -/
theorem qsFirst_parse_qs (qs k : String) :
    qsFirst (parse_qs qs) k =
      ((parse_qsl qs).find? (fun p => p.1 == k)).map (fun p => p.2) := by
  unfold parse_qs
  rw [qsFirst_foldl]
  simp [qsFirst, List.find?, Option.orElse]

/-- Every value group `parse_qs` builds is non-empty, so indexing `[0]` on a
present key never fails in the source. -/
theorem parse_qs_groups_ne_nil (qs : String) :
    ∀ p ∈ parse_qs qs, p.2 ≠ [] := by
  have hins : ∀ (k v : String) (acc : List (String × List String)),
      (∀ p ∈ acc, p.2 ≠ []) → ∀ p ∈ insertPair acc k v, p.2 ≠ [] := by
    intro k v acc
    induction acc with
    | nil =>
      intro _ p hp
      simp [insertPair] at hp
      simp [hp]
    | cons hd tl ih =>
      intro hacc p hp
      obtain ⟨k1, vs⟩ := hd
      simp only [insertPair] at hp
      by_cases hk : k1 = k
      · rw [if_pos hk] at hp
        rcases List.mem_cons.mp hp with hp | hp
        · subst hp; simp
        · exact hacc p (List.mem_cons_of_mem _ hp)
      · rw [if_neg hk] at hp
        rcases List.mem_cons.mp hp with hp | hp
        · subst hp
          exact hacc _ (List.mem_cons_self _ _)
        · exact ih (fun q hq => hacc q (List.mem_cons_of_mem _ hq)) p hp
  have hfold : ∀ (l : List (String × String)) (acc : List (String × List String)),
      (∀ p ∈ acc, p.2 ≠ []) →
      ∀ p ∈ l.foldl (fun a kv => insertPair a kv.1 kv.2) acc, p.2 ≠ [] := by
    intro l
    induction l with
    | nil => intro acc hacc; simpa using hacc
    | cons hd tl ih =>
      intro acc hacc
      rw [List.foldl_cons]
      exact ih _ (hins hd.1 hd.2 acc hacc)
  exact hfold (parse_qsl qs) [] (by simp)

/-! ## C10: duplicated query parameters are read at their first occurrence -/

/-- C10: when a parameter repeats in the query, only its first occurrence
matters to `validate_authorization_response`: the first `error` value is the
one reported; with no `error` pair at all, a first `state` value equal to
the stored state passes the CSRF check whatever later duplicates hold, and
the result is the value of the first `code` pair (or `None` with no `code`
pair), later duplicates ignored. -/
theorem claim10_first_occurrence (nfkc : String → String) (self : SpotifyPKCEAuth)
    (url q : String)
    (hq : urlsplitQuery nfkc url = .ok q) :
    (∀ p, (parse_qsl q).find? (fun r => r.1 == "error") = some p →
      validate_authorization_response nfkc self url =
        .error (.valueError ("Authorization error: " ++ p.2)))
    ∧ ((parse_qsl q).find? (fun r => r.1 == "error") = none →
      ((parse_qsl q).find? (fun r => r.1 == "state")).map (fun r => r.2) = some self.state →
      validate_authorization_response nfkc self url =
        .ok (((parse_qsl q).find? (fun r => r.1 == "code")).map (fun r => r.2))) := by
  constructor
  · intro p hp
    have herr : qsFirst (parse_qs q) "error" = some p.2 := by
      rw [qsFirst_parse_qs, hp]
      rfl
    simp [validate_authorization_response, hq, herr]
  · intro herr0 hst0
    have herr : qsFirst (parse_qs q) "error" = none := by
      rw [qsFirst_parse_qs, herr0]
      rfl
    have hst : qsFirst (parse_qs q) "state" = some self.state := by
      rw [qsFirst_parse_qs, hst0]
    have hcode : qsFirst (parse_qs q) "code" =
        ((parse_qsl q).find? (fun r => r.1 == "code")).map (fun r => r.2) :=
      qsFirst_parse_qs q "code"
    cases hc : ((parse_qsl q).find? (fun r => r.1 == "code")).map (fun r => r.2) with
    | none => simp [validate_authorization_response, hq, herr, hst, hc ▸ hcode]
    | some c => simp [validate_authorization_response, hq, herr, hst, hc ▸ hcode]

/-- C10 witness: the first `state` matches (a later duplicate does not) and
the first of two `code` values is returned. -/
theorem claim10_witness :
    validate_authorization_response id sampleAuth
      "http://localhost:8080/callback?state=S&state=BAD&code=C1&code=C2" =
      .ok (some "C1") := by
  have h := (claim10_first_occurrence id sampleAuth
      "http://localhost:8080/callback?state=S&state=BAD&code=C1&code=C2"
      "state=S&state=BAD&code=C1&code=C2" (by decide)).2 (by decide) (by decide)
  rw [h]
  decide

/-! ## Properties of the base64url encoder -/

/-- No entry of the alphabet is the padding character. -/
theorem b64Table_ne_pad : ∀ i, i < 64 → b64urlTable.getD i 'A' ≠ '=' := by decide

/-- Every entry of the alphabet is ASCII. -/
theorem b64Table_ascii : ∀ i, i < 64 → (b64urlTable.getD i 'A').toNat < 128 := by decide

/-- An encoder output character is never `=` outside the padding. -/
theorem b64char_ne_pad (n : Nat) : b64char n ≠ '=' :=
  b64Table_ne_pad (n % 64) (Nat.mod_lt _ (by norm_num))

/-- The boolean form of `b64char_ne_pad`, for `filter` and `dropWhile`. -/
theorem b64char_beq_pad (n : Nat) : (b64char n == '=') = false := by
  simpa using b64char_ne_pad n

/-- An encoder output character is ASCII. -/
theorem b64char_ascii (n : Nat) : (b64char n).toNat < 128 :=
  b64Table_ascii (n % 64) (Nat.mod_lt _ (by norm_num))

/-- Encoding a byte list whose length is a multiple of three yields four
characters per three bytes, all of them alphabet characters (no padding). -/
theorem b64urlEncode_mult3 (k : Nat) : ∀ l : List Nat, l.length = 3 * k →
    (b64urlEncode l).length = 4 * k ∧ ∀ c ∈ b64urlEncode l, ∃ n, c = b64char n := by
  induction k with
  | zero =>
    intro l hl
    have hnil : l = [] := List.length_eq_zero.mp (by omega)
    subst hnil
    simp [b64urlEncode]
  | succ k ih =>
    intro l hl
    cases l with
    | nil => simp at hl
    | cons b0 t0 =>
      cases t0 with
      | nil => simp at hl; omega
      | cons b1 t1 =>
        cases t1 with
        | nil => simp at hl; omega
        | cons b2 rest =>
          have hr : rest.length = 3 * k := by
            simp only [List.length_cons] at hl
            omega
          obtain ⟨ihl, ihm⟩ := ih rest hr
          constructor
          · simp only [b64urlEncode, List.length_cons, ihl]
            omega
          · intro c hc
            simp only [b64urlEncode, List.mem_cons] at hc
            rcases hc with h | h | h | h | h
            · exact ⟨_, h⟩
            · exact ⟨_, h⟩
            · exact ⟨_, h⟩
            · exact ⟨_, h⟩
            · exact ihm c h

/-- Stripping trailing padding from a padding-free list changes nothing. -/
theorem rstripEq_eq_self (l : List Char) (h : ∀ c ∈ l, c ≠ '=') : rstripEq l = l := by
  unfold rstripEq
  have hdrop : l.reverse.dropWhile (fun c => c == '=') = l.reverse := by
    cases hrev : l.reverse with
    | nil => simp
    | cons c t =>
      have hc : c ∈ l := by
        have hmem : c ∈ l.reverse := hrev ▸ List.mem_cons_self c t
        simpa using hmem
      have hb : (c == '=') = false := by simpa using h c hc
      simp [List.dropWhile_cons, hb]
  rw [hdrop, List.reverse_reverse]

/-- The padded-and-stripped encoding of any SHA-256 digest is non-empty:
the digest always has bytes, and the first output character is from the
alphabet, which `stripPad` keeps. -/
theorem stripPad_b64_sha256_ne_nil (msg : List Nat) :
    stripPad (b64urlEncode (sha256 msg)) ≠ [] := by
  unfold sha256
  simp [wordBytesBE, b64urlEncode, stripPad, List.filter, b64char_beq_pad]

/-! ## Properties of the pkce helpers -/

/-- 96 bytes of entropy give a verifier of exactly 128 ASCII characters. -/
theorem generate_code_verifier_ok (entropy : List Nat) (h96 : entropy.length = 96) :
    ∃ v : String, generate_code_verifier 128 entropy = .ok v ∧ v.length = 128
      ∧ ∀ c ∈ v.toList, c.toNat < 128 := by
  obtain ⟨hlen, hmem⟩ := b64urlEncode_mult3 32 entropy (by omega)
  have hne : ∀ c ∈ b64urlEncode entropy, c ≠ '=' := by
    intro c hc
    obtain ⟨n, rfl⟩ := hmem c hc
    exact b64char_ne_pad n
  have hstrip : rstripEq (b64urlEncode entropy) = b64urlEncode entropy :=
    rstripEq_eq_self _ hne
  refine ⟨⟨(rstripEq (b64urlEncode entropy)).take 128⟩, ?_, ?_, ?_⟩
  · unfold generate_code_verifier
    rw [if_pos (by omega)]
  · show ((rstripEq (b64urlEncode entropy)).take 128).length = 128
    rw [hstrip, List.length_take, hlen]
    omega
  · intro c hc
    have hc1 : c ∈ b64urlEncode entropy := by
      rw [hstrip] at hc
      exact List.take_subset 128 _ hc
    obtain ⟨n, rfl⟩ := hmem c hc1
    exact b64char_ascii n

/-- On a 128-character ASCII verifier the challenge derivation succeeds and
is exactly the stripped base64url encoding of the SHA-256 digest of the
ASCII bytes. -/
theorem get_code_challenge_ok (v : String) (hlen : v.length = 128)
    (hascii : ∀ c ∈ v.toList, c.toNat < 128) :
    get_code_challenge v = .ok ⟨stripPad (b64urlEncode (sha256 (v.toList.map Char.toNat)))⟩ := by
  have hall : v.toList.all (fun c => decide (c.toNat < 128)) = true := by
    rw [List.all_eq_true]
    intro c hc
    simpa using hascii c hc
  unfold get_code_challenge asciiEncode
  rw [if_pos (by omega), if_pos hall]

/-- A successfully derived challenge is never the empty string. -/
theorem get_code_challenge_ne_empty (v c : String) (h : get_code_challenge v = .ok c) :
    c ≠ "" := by
  intro hc
  subst hc
  unfold get_code_challenge asciiEncode at h
  repeat' split at h
  all_goals
    first
      | (simp only [Except.ok.injEq] at h
         rw [show ("" : String) = ⟨[]⟩ from rfl] at h
         injection h with h
         exact stripPad_b64_sha256_ne_nil _ h)
      | simp at h

/-- With 96 bytes of entropy, `generate_pkce_params` succeeds: it stores a
fresh 128-character verifier together with its derived challenge, returns
both, and the challenge is non-empty. -/
theorem generate_pkce_params_ok (self : SpotifyPKCEAuth) (entropy : List Nat)
    (h96 : entropy.length = 96) :
    ∃ v c : String,
      generate_pkce_params self entropy =
        .ok ({ self with code_verifier := some v, code_challenge := some c },
             { code_verifier := v, code_challenge := c })
      ∧ v.length = 128
      ∧ (∀ ch ∈ v.toList, ch.toNat < 128)
      ∧ c = ⟨stripPad (b64urlEncode (sha256 (v.toList.map Char.toNat)))⟩
      ∧ get_code_challenge v = .ok c ∧ c ≠ "" := by
  obtain ⟨v, hgen, hlen, hascii⟩ := generate_code_verifier_ok entropy h96
  have hchal := get_code_challenge_ok v hlen hascii
  refine ⟨v, _, ?_, hlen, hascii, rfl, hchal, get_code_challenge_ne_empty v _ hchal⟩
  unfold generate_pkce_params
  rw [hgen]
  dsimp only
  rw [hchal]

/-- Whenever `generate_pkce_params` succeeds, the new state stores exactly
the returned pair and the challenge is the successful derivation from the
verifier. -/
theorem generate_pkce_params_inv (self s1 : SpotifyPKCEAuth) (entropy : List Nat)
    (p : PkceParams) (h : generate_pkce_params self entropy = .ok (s1, p)) :
    s1 = { self with code_verifier := some p.code_verifier,
                     code_challenge := some p.code_challenge }
    ∧ get_code_challenge p.code_verifier = .ok p.code_challenge := by
  unfold generate_pkce_params at h
  split at h
  · simp at h
  · split at h
    · simp at h
    · simp only [Except.ok.injEq, Prod.mk.injEq] at h
      obtain ⟨hs, hp⟩ := h
      subst hp
      subst hs
      exact ⟨rfl, by assumption⟩

/-! ## C9: the PKCE pair -/

/-- C9: on 96 bytes of entropy (what `token_urlsafe(96)` consumes),
`generate_pkce_params` stores a verifier of exactly 128 characters together
with a challenge that is exactly the SHA-256-and-base64url derivation of
that verifier, so re-deriving the challenge from the stored verifier
(`get_code_challenge`) reproduces the stored challenge. -/
theorem claim9_pkce_pair (self : SpotifyPKCEAuth) (entropy : List Nat)
    (h96 : entropy.length = 96) :
    ∃ (s1 : SpotifyPKCEAuth) (v c : String),
      generate_pkce_params self entropy = .ok (s1, { code_verifier := v, code_challenge := c })
      ∧ s1.code_verifier = some v
      ∧ s1.code_challenge = some c
      ∧ v.length = 128
      ∧ c = ⟨stripPad (b64urlEncode (sha256 (v.toList.map Char.toNat)))⟩
      ∧ get_code_challenge v = .ok c := by
  obtain ⟨v, c, hok, hlen, _, hderiv, hchal, _⟩ := generate_pkce_params_ok self entropy h96
  exact ⟨_, v, c, hok, rfl, rfl, hlen, hderiv, hchal⟩

/-- C9 witness: the generation succeeds on a concrete 96-byte entropy. -/
theorem claim9_witness :
    ∃ (s1 : SpotifyPKCEAuth) (v c : String),
      generate_pkce_params sampleAuth (List.range 96) =
        .ok (s1, { code_verifier := v, code_challenge := c })
      ∧ s1.code_verifier = some v
      ∧ s1.code_challenge = some c
      ∧ v.length = 128
      ∧ c = ⟨stripPad (b64urlEncode (sha256 (v.toList.map Char.toNat)))⟩
      ∧ get_code_challenge v = .ok c :=
  claim9_pkce_pair sampleAuth (List.range 96) (by decide)

/-! ## C8: the authorization URL -/

/-- C8: `get_authorization_url` generates a fresh PKCE pair exactly when no
(truthy) challenge exists yet — the lazy path is the state change of
`generate_pkce_params` and nothing else; the returned URL is the authorize
endpoint with exactly the query parameters client_id, response_type=code,
redirect_uri, scope, state, code_challenge_method=S256 and code_challenge,
in that order; and once a call has succeeded, every later call returns the
identical URL and the identical state, consuming no randomness. -/
theorem claim8_authorization_url :
    (∀ (self : SpotifyPKCEAuth) (entropy : List Nat),
      self.code_challenge = none ∨ self.code_challenge = some "" →
      get_authorization_url self entropy =
        (generate_pkce_params self entropy).map (fun p => (p.1, buildAuthUrl p.1)))
    ∧ (∀ (self : SpotifyPKCEAuth) (entropy : List Nat) (c : String),
      self.code_challenge = some c → c ≠ "" →
      get_authorization_url self entropy = .ok (self, buildAuthUrl self))
    ∧ (∀ self : SpotifyPKCEAuth, buildAuthUrl self =
        authEndpoint ++ "?" ++ urlencode [
          ("client_id", self.client_id),
          ("response_type", "code"),
          ("redirect_uri", self.redirect_uri),
          ("scope", self.scope),
          ("state", self.state),
          ("code_challenge_method", "S256"),
          ("code_challenge", pyStr self.code_challenge)])
    ∧ (∀ (self s1 : SpotifyPKCEAuth) (entropy e2 : List Nat) (url : String),
      get_authorization_url self entropy = .ok (s1, url) →
      get_authorization_url s1 e2 = .ok (s1, url)) := by
  have hskip : ∀ (self : SpotifyPKCEAuth) (entropy : List Nat) (c : String),
      self.code_challenge = some c → c ≠ "" →
      get_authorization_url self entropy = .ok (self, buildAuthUrl self) := by
    intro self entropy c hc hcne
    unfold get_authorization_url
    rw [if_neg]
    simp [hc, hcne]
  refine ⟨?_, hskip, fun _ => rfl, ?_⟩
  · intro self entropy h
    unfold get_authorization_url
    rw [if_pos h]
    cases hg : generate_pkce_params self entropy <;> simp [Except.map, hg]
  · intro self s1 entropy e2 url hres
    unfold get_authorization_url at hres
    by_cases h : self.code_challenge = none ∨ self.code_challenge = some ""
    · rw [if_pos h] at hres
      cases hg : generate_pkce_params self entropy with
      | error e => rw [hg] at hres; simp at hres
      | ok sp =>
        rw [hg] at hres
        obtain ⟨s2, p⟩ := sp
        simp only [Except.ok.injEq, Prod.mk.injEq] at hres
        obtain ⟨hs, hu⟩ := hres
        obtain ⟨hstate, hchal⟩ := generate_pkce_params_inv self s2 entropy p hg
        have hcne : p.code_challenge ≠ "" := get_code_challenge_ne_empty _ _ hchal
        have hs1 : s1.code_challenge = some p.code_challenge := by
          rw [← hs, hstate]
        rw [← hu, ← hs]
        exact hskip s2 e2 p.code_challenge (by rw [hstate]) hcne
    · rw [if_neg h] at hres
      simp only [Except.ok.injEq, Prod.mk.injEq] at hres
      obtain ⟨hs, hu⟩ := hres
      subst hs
      rw [← hu]
      unfold get_authorization_url
      rw [if_neg h]

/-- C8 witness: with a challenge already present the call changes nothing
and returns the built URL, for any entropy. -/
theorem claim8_witness :
    get_authorization_url authChal [] = .ok (authChal, buildAuthUrl authChal) :=
  claim8_authorization_url.2.1 authChal [] "CH" rfl (by decide)

end SpotifyExporter
